import Mathlib

/-!
Verification of the AIPress meta-control-plane routing and health-monitoring
subsystem (src/meta-control-plane/routing.py, health_monitor.py, models.py,
storage.py), shallowly embedded in Lean 4.

Python integers are modelled as Nat or Int (with explicit mod 2^32 where the
SHA-256 arithmetic wraps), Python dicts as insertion-ordered association
lists, float utilization arithmetic as exact rationals, and the async I/O
collaborators (HTTP probe, metadata store backend) as explicit environment
parameters.
-/

set_option maxRecDepth 100000

namespace Aipress

/-! ### SHA-256 (hashlib.sha256(...).hexdigest() as used by routing.py)

A faithful word-level implementation of FIPS-180-4 SHA-256 over byte lists,
with 32-bit words represented as Nat reduced mod 2^32. -/

/-- The modulus 2^32 of SHA-256 word arithmetic. -/
def M32 : Nat := 4294967296

/-- Reduce to a 32-bit word. -/
def w32 (x : Nat) : Nat := x % M32

/-- Right-rotate a 32-bit word by n. -/
def rotr (n x : Nat) : Nat := w32 ((x >>> n) ||| (x <<< (32 - n)))

/-- SHA-256 choice function. -/
def shaCh (x y z : Nat) : Nat := (x &&& y) ^^^ ((x ^^^ 4294967295) &&& z)

/-- SHA-256 majority function. -/
def shaMaj (x y z : Nat) : Nat := (x &&& y) ^^^ (x &&& z) ^^^ (y &&& z)

/-- SHA-256 big sigma 0. -/
def bigS0 (x : Nat) : Nat := rotr 2 x ^^^ rotr 13 x ^^^ rotr 22 x

/-- SHA-256 big sigma 1. -/
def bigS1 (x : Nat) : Nat := rotr 6 x ^^^ rotr 11 x ^^^ rotr 25 x

/-- SHA-256 small sigma 0. -/
def smallS0 (x : Nat) : Nat := rotr 7 x ^^^ rotr 18 x ^^^ (x >>> 3)

/-- SHA-256 small sigma 1. -/
def smallS1 (x : Nat) : Nat := rotr 17 x ^^^ rotr 19 x ^^^ (x >>> 10)

/-- SHA-256 round constants (FIPS-180-4, in decimal). -/
def shaK : List Nat :=
  [1116352408, 1899447441, 3049323471, 3921009573, 961987163, 1508970993,
   2453635748, 2870763221, 3624381080, 310598401, 607225278, 1426881987,
   1925078388, 2162078206, 2614888103, 3248222580, 3835390401, 4022224774,
   264347078, 604807628, 770255983, 1249150122, 1555081692, 1996064986,
   2554220882, 2821834349, 2952996808, 3210313671, 3336571891, 3584528711,
   113926993, 338241895, 666307205, 773529912, 1294757372, 1396182291,
   1695183700, 1986661051, 2177026350, 2456956037, 2730485921, 2820302411,
   3259730800, 3345764771, 3516065817, 3600352804, 4094571909, 275423344,
   430227734, 506948616, 659060556, 883997877, 958139571, 1322822218,
   1537002063, 1747873779, 1955562222, 2024104815, 2227730452, 2361852424,
   2428436474, 2756734187, 3204031479, 3329325298]

/-- SHA-256 initial hash state (FIPS-180-4, in decimal). -/
def shaH0 : List Nat :=
  [1779033703, 3144134277, 1013904242, 2773480762,
   1359893119, 2600822924, 528734635, 1541459225]

/-- Big-endian byte serialization of n into k bytes. -/
def toBytesBE (k n : Nat) : List Nat :=
  (List.range k).map (fun i => (n >>> (8 * (k - 1 - i))) % 256)

/-- Interpret a byte list as a big-endian integer. -/
def wordOfBytes (l : List Nat) : Nat := l.foldl (fun acc b => acc * 256 + b) 0

/-- The 16 initial 32-bit message-schedule words of a 64-byte block. -/
def bytesToWords (block : List Nat) : List Nat :=
  (List.range 16).map (fun i => wordOfBytes ((block.drop (4 * i)).take 4))

/-- SHA-256 padding: append 0x80, zero bytes to 56 mod 64, then the 64-bit
big-endian bit length. -/
def padMessage (msg : List Nat) : List Nat :=
  msg ++ [128] ++ List.replicate ((119 - msg.length % 64) % 64) 0 ++ toBytesBE 8 (8 * msg.length)

/-- Extend the 16 block words to the 64 message-schedule words. -/
def extendSchedule (w16 : List Nat) : List Nat :=
  (List.range 48).foldl
    (fun w _ =>
      let n := w.length
      w ++ [w32 (smallS1 (w.getD (n - 2) 0) + w.getD (n - 7) 0 +
                 smallS0 (w.getD (n - 15) 0) + w.getD (n - 16) 0)])
    w16

/-- One SHA-256 compression round applied to the working state [a..h]. -/
def compressRound (w : List Nat) (st : List Nat) (i : Nat) : List Nat :=
  let a := st.getD 0 0
  let b := st.getD 1 0
  let c := st.getD 2 0
  let d := st.getD 3 0
  let e := st.getD 4 0
  let f := st.getD 5 0
  let g := st.getD 6 0
  let h := st.getD 7 0
  let t1 := w32 (h + bigS1 e + shaCh e f g + shaK.getD i 0 + w.getD i 0)
  let t2 := w32 (bigS0 a + shaMaj a b c)
  [w32 (t1 + t2), a, b, c, w32 (d + t1), e, f, g]

/-- Compress one 64-byte block into the hash state. -/
def compressBlock (h : List Nat) (block : List Nat) : List Nat :=
  let w := extendSchedule (bytesToWords block)
  let final := (List.range 64).foldl (compressRound w) h
  List.zipWith (fun x y => w32 (x + y)) h final

/-- SHA-256 digest (32 bytes) of a byte-list message. -/
def sha256 (msg : List Nat) : List Nat :=
  let padded := padMessage msg
  let hs := (List.range (padded.length / 64)).foldl
    (fun h i => compressBlock h ((padded.drop (64 * i)).take 64)) shaH0
  (hs.map (toBytesBE 4)).flatten

/-- Lowercase hex character for a nibble, as Python hexdigest produces. -/
def hexChar (n : Nat) : Char := if n < 10 then Char.ofNat (48 + n) else Char.ofNat (87 + n)

/-- Two lowercase hex characters of a byte. -/
def byteToHex (b : Nat) : List Char := [hexChar (b / 16), hexChar (b % 16)]

/-- The hexdigest character string of a byte list. -/
def hexDigestChars (bytes : List Nat) : List Char := (bytes.map byteToHex).flatten

/-- Numeric value of a lowercase hex character, as int(. , 16) uses. -/
def hexCharVal (c : Char) : Nat := if 97 ≤ c.toNat then c.toNat - 87 else c.toNat - 48

/-- Parse a hex character list as an unsigned integer: int(s, 16). -/
def hexToNat (l : List Char) : Nat := l.foldl (fun acc c => 16 * acc + hexCharVal c) 0

/-- UTF-8 encoding of one character, as Python str.encode() produces. -/
def utf8EncodeChar (c : Char) : List Nat :=
  let n := c.toNat
  if n < 128 then [n]
  else if n < 2048 then [192 ||| (n >>> 6), 128 ||| (n &&& 63)]
  else if n < 65536 then
    [224 ||| (n >>> 12), 128 ||| ((n >>> 6) &&& 63), 128 ||| (n &&& 63)]
  else
    [240 ||| (n >>> 18), 128 ||| ((n >>> 12) &&& 63), 128 ||| ((n >>> 6) &&& 63), 128 ||| (n &&& 63)]

/-- UTF-8 encoding of a string: tenant_id.encode(). -/
def utf8Encode (s : String) : List Nat := (s.data.map utf8EncodeChar).flatten

/-- hashlib.sha256(tenant_id.encode()).hexdigest() as a character list. -/
def tenantHashHex (tenantId : String) : List Char := hexDigestChars (sha256 (utf8Encode tenantId))

/-- Python format f-string with format spec 03d: decimal, zero-padded to
at least three digits. -/
def zeroPad3 (n : Nat) : String :=
  let s := toString n
  if s.length < 3 then String.mk (List.replicate (3 - s.length) '0') ++ s else s

/-- TenantRouter._calculate_shard_id: consistent-hash shard id of a tenant. -/
def calculateShardId (numShards : Nat) (tenantId : String) : String :=
  let shardNumber := hexToNat ((tenantHashHex tenantId).take 8) % numShards + 1
  "aipress-shard-" ++ zeroPad3 shardNumber

/-! ### Python dict model

Insertion-ordered association lists: assignment replaces the value of the
first (for Python dicts, unique) occurrence of the key in place, or appends
a fresh binding at the end; deletion removes the key; lookup returns the
first binding. -/

/-- Dict lookup: d.get(k) / d[k] returning none when absent. -/
def dictGet? [DecidableEq α] (d : List (α × β)) (k : α) : Option β :=
  (d.find? (fun p => decide (p.1 = k))).map (·.2)

/-- Dict lookup with default: d.get(k, v0), and defaultdict reads. -/
def dictGetD [DecidableEq α] (d : List (α × β)) (k : α) (v0 : β) : β :=
  (dictGet? d k).getD v0

/-- Dict assignment d[k] = v: update in place or append. -/
def dictSet [DecidableEq α] (d : List (α × β)) (k : α) (v : β) : List (α × β) :=
  match d with
  | [] => [(k, v)]
  | p :: ps => if p.1 = k then (k, v) :: ps else p :: dictSet ps k v

/-- Dict deletion: del d[k]. -/
def dictDel [DecidableEq α] (d : List (α × β)) (k : α) : List (α × β) :=
  d.filter (fun p => decide (¬ p.1 = k))

/-! ### Tenant router state (routing.py TenantRouter + models.py + storage.py)

The router's in-memory caches, its LoadBalancingConfig, and the metadata
store's tenant collection are bundled into one state record; every router
method is a state-passing function over it. The routing statistics counters
(total_routes / cache_hits / cache_misses / rebalance_operations) are pure
telemetry that no routing result depends on and are not modelled. Tenant
counts are Int because the Python counters can be driven below zero or above
capacity. Timestamps are abstract Nat ticks supplied by the caller. -/

/-- models.py Tenant record (created_at as an abstract tick; last_seen and
the free-form metadata map carry no behavior and are omitted). -/
structure Tenant where
  tenantId : String
  shardId : String
  projectId : String
  createdAt : Nat
deriving DecidableEq

/-- TenantRouter state: configuration, in-memory caches and the storage
backend's tenant table. max_tenants_per_shard and
rebalance_threshold_percent come from LoadBalancingConfig (defaults 50 and
80.0). -/
structure RouterState where
  numShards : Nat
  maxTenantsPerShard : Nat
  rebalanceThresholdPercent : ℚ
  cache : List (String × String)
  counts : List (String × Int)
  availableShards : List String
  store : List (String × Tenant)
deriving DecidableEq

/-- A freshly constructed TenantRouter(num_shards) over an empty storage
backend, with default LoadBalancingConfig. -/
def freshRouter (numShards : Nat) : RouterState :=
  { numShards := numShards
    maxTenantsPerShard := 50
    rebalanceThresholdPercent := 80
    cache := []
    counts := []
    availableShards := []
    store := [] }

/-- TenantRouter._get_project_id_for_shard. -/
def projectIdForShard (shardId : String) : String :=
  "aipress-shard-" ++ (shardId.splitOn "-").getLastD ""

/-- TenantRouter.get_shard_for_tenant: cached assignment if present,
otherwise compute the consistent hash and memoize it. -/
def getShardForTenant (st : RouterState) (tenantId : String) : String × RouterState :=
  match dictGet? st.cache tenantId with
  | some shardId => (shardId, st)
  | none =>
    let shardId := calculateShardId st.numShards tenantId
    (shardId, { st with cache := dictSet st.cache tenantId shardId })

/-- TenantRouter.register_tenant (now = datetime tick for created_at). -/
def registerTenant (st : RouterState) (now : Nat) (tenantId shardId : String) : RouterState :=
  { st with
    cache := dictSet st.cache tenantId shardId
    counts := dictSet st.counts shardId (dictGetD st.counts shardId 0 + 1)
    store := dictSet st.store tenantId
      ⟨tenantId, shardId, projectIdForShard shardId, now⟩ }

/-- TenantRouter.unregister_tenant: counter floored at zero by max(0, c-1). -/
def unregisterTenant (st : RouterState) (tenantId : String) : RouterState :=
  match dictGet? st.cache tenantId with
  | none => st
  | some shardId =>
    { st with
      cache := dictDel st.cache tenantId
      counts := dictSet st.counts shardId (max 0 (dictGetD st.counts shardId 0 - 1))
      store := dictDel st.store tenantId }

/-- TenantRouter.add_available_shard: add to the known pool (set add
modelled as append-if-absent) and ensure a zero counter entry. -/
def addAvailableShard (st : RouterState) (shardId : String) : RouterState :=
  { st with
    availableShards :=
      if shardId ∈ st.availableShards then st.availableShards
      else st.availableShards ++ [shardId]
    counts :=
      if (dictGet? st.counts shardId).isSome then st.counts
      else dictSet st.counts shardId 0 }

/-- TenantRouter.get_total_tenant_count: len of the routing cache. -/
def getTotalTenantCount (st : RouterState) : Nat := st.cache.length

/-- Exact rational division tenant_count / max_tenants, written with
Rat.divInt so that it evaluates by kernel reduction; utilOf_eq proves it
equal to the field division (c : ℚ) / (M : ℚ). -/
def utilOf (c : ℤ) (M : ℕ) : ℚ := Rat.divInt c (M : ℤ)

/-- q / 100 (the rebalance threshold as a fraction), written with
Rat.divInt so that it evaluates by kernel reduction; pct_eq proves it
equal to q / 100. -/
def pct (q : ℚ) : ℚ := Rat.divInt q.num ((q.den : ℤ) * 100)

/-- TenantRouter.get_shard_utilization: tenant_count / max_tenants_per_shard
(Python float division modelled exactly in the rationals). -/
def getShardUtilization (st : RouterState) (shardId : String) : ℚ :=
  utilOf (dictGetD st.counts shardId 0) st.maxTenantsPerShard

/-- Ascending-utilization order on the (shard_id, utilization, tenant_count)
tuples built by get_optimal_shard; with insertion sort this reproduces the
stable ascending sort used there. -/
def ascUtil (a b : String × ℚ × ℤ) : Prop := a.2.1 ≤ b.2.1

instance : DecidableRel ascUtil := fun a b => inferInstanceAs (Decidable (a.2.1 ≤ b.2.1))

instance : IsTotal (String × ℚ × ℤ) ascUtil := ⟨fun a b => le_total a.2.1 b.2.1⟩

instance : IsTrans (String × ℚ × ℤ) ascUtil := ⟨fun _ _ _ hab hbc => le_trans hab hbc⟩

/-- The exact failure message raised when no shard has spare capacity. -/
def noCapacityMsg : String :=
  "No available capacity in existing shards - new shard creation required"

instance [DecidableEq ε] [DecidableEq α] : DecidableEq (Except ε α) := fun x y =>
  match x, y with
  | .ok a, .ok b =>
    if h : a = b then .isTrue (by rw [h]) else .isFalse (fun he => h (by injection he))
  | .error a, .error b =>
    if h : a = b then .isTrue (by rw [h]) else .isFalse (fun he => h (by injection he))
  | .ok _, .error _ => .isFalse (fun he => Except.noConfusion he)
  | .error _, .ok _ => .isFalse (fun he => Except.noConfusion he)

/-- TenantRouter.get_optimal_shard: sort known shards by utilization
ascending (stably), return the first below capacity, raise the
capacity-exhausted error otherwise. -/
def getOptimalShard (st : RouterState) : Except String String :=
  let shardUtilizations := st.availableShards.map (fun sid =>
    let tenantCount := dictGetD st.counts sid 0
    (sid, utilOf tenantCount st.maxTenantsPerShard, tenantCount))
  let sorted := List.insertionSort ascUtil shardUtilizations
  match sorted.find? (fun x => decide (x.2.2 < (st.maxTenantsPerShard : ℤ))) with
  | some x => .ok x.1
  | none => .error noCapacityMsg

/-- TenantRouter.migrate_tenant: unknown tenant fails; already-at-target is
a no-op success; a target at or above capacity fails with no state change;
otherwise cache, counters and the stored Tenant record are updated. -/
def migrateTenant (st : RouterState) (tenantId targetShardId : String) : Bool × RouterState :=
  match dictGet? st.cache tenantId with
  | none => (false, st)
  | some sourceShardId =>
    if sourceShardId = targetShardId then (true, st)
    else if (st.maxTenantsPerShard : ℤ) ≤ dictGetD st.counts targetShardId 0 then (false, st)
    else
      let cache1 := dictSet st.cache tenantId targetShardId
      let counts1 := dictSet st.counts sourceShardId (dictGetD st.counts sourceShardId 0 - 1)
      let counts2 := dictSet counts1 targetShardId (dictGetD counts1 targetShardId 0 + 1)
      let store1 :=
        match dictGet? st.store tenantId with
        | some tenant => dictSet st.store tenantId
            { tenant with shardId := targetShardId, projectId := projectIdForShard targetShardId }
        | none => st.store
      (true, { st with cache := cache1, counts := counts2, store := store1 })

/-! ### Rebalancing (routing.py TenantRouter.rebalance_tenants) -/

/-- One entry of the per-shard statistics list built at the start of
rebalance_tenants. -/
structure SStat where
  shardId : String
  tenantCount : ℤ
  utilization : ℚ
  overThreshold : Bool
deriving DecidableEq

/-- The statistics entry of one shard at the current counter values. -/
def mkStat (st : RouterState) (sid : String) : SStat :=
  let tenantCount := dictGetD st.counts sid 0
  let utilization := utilOf tenantCount st.maxTenantsPerShard
  ⟨sid, tenantCount, utilization, decide (utilization > pct st.rebalanceThresholdPercent)⟩

/-- Descending-utilization order used by rebalance_tenants
(sort(key=utilization, reverse=True)); insertion sort in this order
reproduces the stable reverse sort. -/
def descUtil (a b : SStat) : Prop := b.utilization ≤ a.utilization

instance : DecidableRel descUtil := fun a b => inferInstanceAs (Decidable (b.utilization ≤ a.utilization))

instance : IsTotal SStat descUtil := ⟨fun a b => (le_total b.utilization a.utilization).symm.symm⟩

instance : IsTrans SStat descUtil := ⟨fun _ _ _ hab hbc => le_trans hbc hab⟩

/-- One recorded migration of the rebalancing report. -/
structure Migration where
  tenantId : String
  src : String
  tgt : String
deriving DecidableEq

/-- The evolving state of the rebalance loops: the router, the remaining
underloaded pool, and the migrations performed so far. -/
structure RebState where
  router : RouterState
  under : List SStat
  migs : List Migration
deriving DecidableEq

/-- Inner rebalance loop: walk the (at most 5) candidate tenants of one
overloaded shard; each is migrated to the shard at the head of the
underloaded pool, whose tracked count/utilization are updated on success and
which is dropped from the pool once its utilization crosses the threshold. -/
def rebInner (source : String) (tenants : List String) (s : RebState) : RebState :=
  match tenants with
  | [] => s
  | t :: ts =>
    match s.under with
    | [] => s
    | tgt :: rest =>
      let m := migrateTenant s.router t tgt.shardId
      if m.1 then
        let newCount := tgt.tenantCount + 1
        let newUtil := utilOf newCount s.router.maxTenantsPerShard
        let under' :=
          if newUtil > pct s.router.rebalanceThresholdPercent then rest
          else { tgt with tenantCount := newCount, utilization := newUtil } :: rest
        rebInner source ts ⟨m.2, under', s.migs ++ [⟨t, source, tgt.shardId⟩]⟩
      else
        rebInner source ts ⟨m.2, s.under, s.migs⟩

/-- Outer rebalance loop over the overloaded shards; stops early when the
underloaded pool is exhausted. The candidate tenants are the first 5 cache
entries currently mapped to the overloaded shard, in cache order. -/
def rebOuter (overloaded : List SStat) (s : RebState) : RebState :=
  match overloaded with
  | [] => s
  | o :: os =>
    if s.under.isEmpty then s
    else
      let tenants := ((s.router.cache.filter (fun p => decide (p.2 = o.shardId))).map (·.1)).take 5
      rebOuter os (rebInner o.shardId tenants s)

/-- TenantRouter.rebalance_tenants: build per-shard stats, sort by
utilization descending, split into overloaded/underloaded at the threshold,
and run the migration loops. Returns the final router state and the list of
migrations performed. -/
def rebalanceTenants (st : RouterState) : RouterState × List Migration :=
  let stats := st.availableShards.map (mkStat st)
  let sorted := List.insertionSort descUtil stats
  let overloaded := sorted.filter (fun s => s.overThreshold)
  let underloaded := sorted.filter (fun s => ! s.overThreshold)
  let final := rebOuter overloaded ⟨st, underloaded, []⟩
  (final.router, final.migs)

/-- Reachability of one router state from another by a sequence of
migrate_tenant calls whose target shards all satisfy N. The rebalance loops
only ever change the router through such calls, so router-level invariants
of rebalancing follow by induction along this relation. -/
inductive MigStarIn (N : String → Prop) (r : RouterState) : RouterState → Prop where
  | refl : MigStarIn N r r
  | tail (r' : RouterState) (t g : String) :
      MigStarIn N r r' → N g → MigStarIn N r (migrateTenant r' t g).2

/-! ### Health monitor (health_monitor.py HealthMonitor + models.py ShardHealth)

The monitor's mutable maps, the storage backend's shard table and the alert
log form the state. Network and storage collaborators are an explicit
per-shard environment: the HTTP probe either yields a status code or raises
(the probe helper swallows the exception and reports unhealthy), the
database/storage sub-checks are the collaborator probes (the development
stubs pin them to true), and the storage get/save calls can raise, which is
the only way the body of check_shard_health itself raises. Metrics
collection (_collect_metrics) produces random mock data that nothing in the
monitored claims reads and is not modelled. -/

/-- models.py ShardHealth. -/
inductive ShardHealth where
  | healthy
  | degraded
  | unhealthy
  | unknown
deriving DecidableEq

/-- models.py Shard record, restricted to the fields check_shard_health
reads or writes (identifier, health, last_health_check). -/
structure ShardRec where
  shardId : String
  health : ShardHealth
  lastHealthCheck : Option Nat
deriving DecidableEq

/-- Outcome of the HTTP GET against the shard control plane. -/
inductive ProbeOutcome where
  | httpOk (status : Nat)
  | raised
deriving DecidableEq

/-- Environment of one check_shard_health invocation: collaborator
behaviors for the probe, the sub-checks and the storage backend. -/
structure CheckEnv where
  getShardRaises : Bool
  saveShardRaises : Bool
  probe : ProbeOutcome
  databaseHealthy : Bool
  storageHealthy : Bool
deriving DecidableEq

/-- An alert record produced by _trigger_alert (type and affected shard). -/
structure Alert where
  alertType : String
  shardId : String
deriving DecidableEq

/-- HealthMonitor state: health map, last-check map, consecutive-error
counters, the storage backend's shard table, the alert log, and the
statistics counters the claims mention. -/
structure MonitorState where
  shardHealth : List (String × ShardHealth)
  lastHealthCheck : List (String × Nat)
  healthCheckErrors : List (String × Nat)
  store : List (String × ShardRec)
  alerts : List Alert
  totalHealthChecks : Nat
  failedHealthChecks : Nat
  alertsTriggered : Nat
deriving DecidableEq

/-- HealthMonitor._check_control_plane_health: true iff the GET returns status 200; an
exception inside the probe is caught there and reported as false. -/
def checkControlPlaneHealth (probe : ProbeOutcome) : Bool :=
  match probe with
  | .httpOk status => status == 200
  | .raised => false

/-- The overall-health derivation of check_shard_health: all sub-checks
pass means healthy, a responsive control plane alone means degraded,
anything else means unhealthy. -/
def deriveHealth (controlPlaneHealthy databaseHealthy storageHealthy : Bool) : ShardHealth :=
  if controlPlaneHealthy && databaseHealthy && storageHealthy then .healthy
  else if controlPlaneHealthy then .degraded
  else .unhealthy

/-- Result classification of one check_shard_health call. -/
inductive CheckOutcome where
  | notFound
  | completed (health : ShardHealth)
  | errored
deriving DecidableEq

/-- The except-branch of check_shard_health: count the failure, bump the
per-shard consecutive-error counter, and mark the shard unhealthy in
memory only. -/
def checkExceptPath (st : MonitorState) (shardId : String) : MonitorState :=
  { st with
    failedHealthChecks := st.failedHealthChecks + 1
    healthCheckErrors := dictSet st.healthCheckErrors shardId
      (dictGetD st.healthCheckErrors shardId 0 + 1)
    shardHealth := dictSet st.shardHealth shardId .unhealthy }

/-- HealthMonitor.check_shard_health for one shard under a given
collaborator environment, at time tick now. -/
def checkShardHealth (env : CheckEnv) (now : Nat) (shardId : String) (st : MonitorState) :
    MonitorState × CheckOutcome :=
  let st0 := { st with totalHealthChecks := st.totalHealthChecks + 1 }
  if env.getShardRaises then (checkExceptPath st0 shardId, .errored)
  else
    match dictGet? st0.store shardId with
    | none => (st0, .notFound)
    | some shard =>
      let controlPlaneHealthy := checkControlPlaneHealth env.probe
      let health := deriveHealth controlPlaneHealthy env.databaseHealthy env.storageHealthy
      let st1 := { st0 with
        shardHealth := dictSet st0.shardHealth shardId health
        lastHealthCheck := dictSet st0.lastHealthCheck shardId now
        healthCheckErrors := dictSet st0.healthCheckErrors shardId 0 }
      if env.saveShardRaises then (checkExceptPath st1 shardId, .errored)
      else
        let shard1 := { shard with health := health, lastHealthCheck := some now }
        ({ st1 with store := dictSet st1.store shardId shard1 }, .completed health)

/-- HealthMonitor._trigger_alert: log the alert and count it. -/
def triggerAlert (st : MonitorState) (alertType shardId : String) : MonitorState :=
  { st with
    alerts := st.alerts ++ [⟨alertType, shardId⟩]
    alertsTriggered := st.alertsTriggered + 1 }

/-- HealthMonitor._check_alerts: for every shard in the health map, an unhealthy status
triggers a shard_unhealthy alert and a consecutive-error count of at least
3 triggers a high_error_rate alert. -/
def checkAlerts (st : MonitorState) : MonitorState :=
  st.shardHealth.foldl
    (fun s p =>
      let s1 := if p.2 = ShardHealth.unhealthy then triggerAlert s "shard_unhealthy" p.1 else s
      if 3 ≤ dictGetD s1.healthCheckErrors p.1 0 then triggerAlert s1 "high_error_rate" p.1
      else s1)
    st

/-- One iteration of _monitoring_loop: health-check every shard listed by
the store, then evaluate alert conditions (metrics collection omitted, see
above). envs gives each shard's collaborator environment this cycle. -/
def monitoringCycle (envs : String → CheckEnv) (now : Nat) (st : MonitorState) : MonitorState :=
  let shardIds := st.store.map (·.1)
  let st1 := shardIds.foldl (fun s sid => (checkShardHealth (envs sid) now sid s).1) st
  checkAlerts st1

/-- Run n monitoring cycles (the time tick of cycle i is i). -/
def runMonitoringCycles (envs : String → CheckEnv) : Nat → MonitorState → MonitorState
  | 0, st => st
  | n + 1, st => runMonitoringCycles envs n (monitoringCycle envs n st)

/-- Number of alerts of one type logged for one shard. -/
def alertCount (st : MonitorState) (alertType shardId : String) : Nat :=
  (st.alerts.filter (fun a => decide (a.alertType = alertType ∧ a.shardId = shardId))).length

/-! ### Concrete scenario states

All router scenario states are reached from a fresh router through the
embedded operations themselves (add_available_shard / register_tenant), so
every state used by a counterexample is reachable in the source system. -/

/-- A shard id of the default development pool. -/
def shardA : String := "aipress-shard-001"

/-- A second shard id. -/
def shardB : String := "aipress-shard-002"

/-- A third shard id. -/
def shardC : String := "aipress-shard-003"

/-- Fifty-one tenants registered into one known shard of capacity 50:
register_tenant performs no capacity check, so the counter passes max. -/
def overfullState : RouterState :=
  (List.range 51).foldl (fun s i => registerTenant s 0 ("t" ++ toString i) shardA)
    (addAvailableShard (freshRouter 1000) shardA)

/-- Exactly max_tenants_per_shard = 50 tenants registered into one known
shard. -/
def fullState : RouterState :=
  (List.range 50).foldl (fun s i => registerTenant s 0 ("t" ++ toString i) shardA)
    (addAvailableShard (freshRouter 1000) shardA)

/-- Three known shards loaded to 45, 10 and 2 tenants: the first is above
the 80 percent rebalance threshold, the other two are below it with
distinct utilizations. -/
def rebalState : RouterState :=
  let s0 := addAvailableShard (addAvailableShard (addAvailableShard
    (freshRouter 1000) shardA) shardB) shardC
  let s1 := (List.range 45).foldl (fun s i => registerTenant s 0 ("a" ++ toString i) shardA) s0
  let s2 := (List.range 10).foldl (fun s i => registerTenant s 0 ("b" ++ toString i) shardB) s1
  (List.range 2).foldl (fun s i => registerTenant s 0 ("c" ++ toString i) shardC) s2

/-- Collaborator environment of a fully healthy shard. -/
def envOk : CheckEnv := ⟨false, false, .httpOk 200, true, true⟩

/-- Environment of a shard whose control-endpoint probe raises (times
out). -/
def envProbeRaised : CheckEnv := ⟨false, false, .raised, true, true⟩

/-- Environment where the metadata-store read inside check_shard_health
raises. -/
def envGetShardRaises : CheckEnv := ⟨true, false, .httpOk 200, true, true⟩

/-- A monitor over a store with two never-checked shards. -/
def monitorInit : MonitorState :=
  { shardHealth := []
    lastHealthCheck := []
    healthCheckErrors := []
    store := [(shardA, ⟨shardA, .unknown, none⟩), (shardB, ⟨shardB, .unknown, none⟩)]
    alerts := []
    totalHealthChecks := 0
    failedHealthChecks := 0
    alertsTriggered := 0 }

/-- Per-shard environments: the first shard's probe raises every cycle, the
second shard is healthy. -/
def probeTimeoutEnvs : String → CheckEnv := fun sid => if sid = shardA then envProbeRaised else envOk

/-- Per-shard environments: the store read for the first shard raises every
cycle, the second shard is healthy. -/
def storeFailEnvs : String → CheckEnv := fun sid => if sid = shardA then envGetShardRaises else envOk

/-- fullState plus a single extra tenant registered in a second shard. -/
def fullStatePlus : RouterState := registerTenant fullState 0 "u0" shardB

/-! ### Association-list dictionary lemmas -/

theorem dictGet?_set_self [DecidableEq α] (d : List (α × β)) (k : α) (v : β) :
    dictGet? (dictSet d k v) k = some v := by
  induction d with
  | nil => simp [dictSet, dictGet?]
  | cons p ps ih =>
    by_cases h : p.1 = k
    · simp [dictSet, h, dictGet?]
    · simpa [dictSet, h, dictGet?, List.find?_cons_of_neg, h] using ih

theorem dictGet?_set_ne [DecidableEq α] (d : List (α × β)) (k k' : α) (v : β) (h : k' ≠ k) :
    dictGet? (dictSet d k v) k' = dictGet? d k' := by
  induction d with
  | nil => simp [dictSet, dictGet?, List.find?, Ne.symm h]
  | cons p ps ih =>
    by_cases hp : p.1 = k
    · subst hp
      simp [dictSet, dictGet?, List.find?, Ne.symm h, h]
    · by_cases hp' : p.1 = k'
      · simp [dictSet, hp, dictGet?, List.find?, hp', h]
      · simpa [dictSet, hp, dictGet?, List.find?, hp'] using ih

theorem dictGetD_set_self [DecidableEq α] (d : List (α × β)) (k : α) (v v0 : β) :
    dictGetD (dictSet d k v) k v0 = v := by
  simp [dictGetD, dictGet?_set_self]

theorem dictGetD_set_ne [DecidableEq α] (d : List (α × β)) (k k' : α) (v v0 : β) (h : k' ≠ k) :
    dictGetD (dictSet d k v) k' v0 = dictGetD d k' v0 := by
  simp [dictGetD, dictGet?_set_ne _ _ _ _ h]

theorem dictSet_idem [DecidableEq α] (d : List (α × β)) (k : α) (v : β) :
    dictSet (dictSet d k v) k v = dictSet d k v := by
  induction d with
  | nil => simp [dictSet]
  | cons p ps ih =>
    by_cases h : p.1 = k
    · simp [dictSet, h]
    · simp [dictSet, h, ih]

theorem dictSet_length_of_absent [DecidableEq α] (d : List (α × β)) (k : α) (v : β)
    (h : dictGet? d k = none) : (dictSet d k v).length = d.length + 1 := by
  induction d with
  | nil => simp [dictSet]
  | cons p ps ih =>
    by_cases hp : p.1 = k
    · simp [dictGet?, List.find?, hp] at h
    · have h' : dictGet? ps k = none := by
        simp only [dictGet?] at h ⊢
        rwa [List.find?_cons_of_neg _ (by simpa using hp)] at h
      simp [dictSet, hp, ih h']

/-! ### SHA-256 test vectors (FIPS-180-4 anchors for the embedding) -/

theorem sha256_abc_vector : hexDigestChars (sha256 (utf8Encode "abc")) =
    "ba7816bf8f01cfea414140de5dae2223b00361a396177a9cb410ff61f20015ad".data := by decide

theorem sha256_acme_vector : hexDigestChars (sha256 (utf8Encode "acme")) =
    "822b33ad87c148a0a20a5ba7cd5ebcaa68d36a18e7aad165554903f52ca82757".data := by decide

/-! ### Rational division bridge lemmas -/

theorem utilOf_eq (c : ℤ) (M : ℕ) : utilOf c M = (c : ℚ) / (M : ℚ) := by
  rw [utilOf, Rat.divInt_eq_div]
  norm_cast

theorem pct_eq (q : ℚ) : pct q = q / 100 := by
  rw [pct, Rat.divInt_eq_div]
  push_cast
  rw [← div_div, Rat.num_div_den]

/-! ### Hex digest bounds (the first 8 hex characters fit in 32 bits) -/

theorem hexToNat_foldl_lt :
    ∀ (l : List Char) (acc : Nat), (∀ c ∈ l, hexCharVal c < 16) →
      List.foldl (fun acc c => 16 * acc + hexCharVal c) acc l < (acc + 1) * 16 ^ l.length := by
  intro l
  induction l with
  | nil => intro acc _; simp [Nat.lt_succ_self]
  | cons c cs ih =>
    intro acc h
    have hc : hexCharVal c < 16 := h c (List.mem_cons_self c cs)
    calc List.foldl (fun acc c => 16 * acc + hexCharVal c) (16 * acc + hexCharVal c) cs
        < (16 * acc + hexCharVal c + 1) * 16 ^ cs.length :=
          ih _ (fun d hd => h d (List.mem_cons_of_mem c hd))
      _ ≤ ((acc + 1) * 16) * 16 ^ cs.length := by
          have : 16 * acc + hexCharVal c + 1 ≤ (acc + 1) * 16 := by omega
          exact Nat.mul_le_mul_right _ this
      _ = (acc + 1) * 16 ^ (cs.length + 1) := by ring

theorem hexToNat_lt (l : List Char) (h : ∀ c ∈ l, hexCharVal c < 16) :
    hexToNat l < 16 ^ l.length := by
  simpa [hexToNat] using hexToNat_foldl_lt l 0 h

theorem hexCharVal_hexChar_lt : ∀ n < 16, hexCharVal (hexChar n) < 16 := by decide

theorem sha256_bytes_lt (msg : List Nat) : ∀ b ∈ sha256 msg, b < 256 := by
  intro b hb
  simp only [sha256, List.mem_flatten, List.mem_map] at hb
  obtain ⟨lb, ⟨w, _, rfl⟩, hmem⟩ := hb
  simp only [toBytesBE, List.mem_map] at hmem
  obtain ⟨i, _, rfl⟩ := hmem
  exact Nat.mod_lt _ (by norm_num)

theorem tenantHashHex_vals (tenantId : String) :
    ∀ c ∈ tenantHashHex tenantId, hexCharVal c < 16 := by
  intro c hc
  simp only [tenantHashHex, hexDigestChars, List.mem_flatten, List.mem_map] at hc
  obtain ⟨lc, ⟨b, hb, rfl⟩, hmem⟩ := hc
  have hblt : b < 256 := sha256_bytes_lt _ b hb
  simp only [byteToHex, List.mem_cons, List.mem_singleton] at hmem
  rcases hmem with rfl | rfl | h
  · exact hexCharVal_hexChar_lt _ (Nat.div_lt_of_lt_mul (by omega))
  · exact hexCharVal_hexChar_lt _ (Nat.mod_lt _ (by norm_num))
  · cases h

theorem tenantHash32_lt (tenantId : String) :
    hexToNat ((tenantHashHex tenantId).take 8) < 2 ^ 32 := by
  have h1 : hexToNat ((tenantHashHex tenantId).take 8) <
      16 ^ ((tenantHashHex tenantId).take 8).length :=
    hexToNat_lt _ (fun c hc => tenantHashHex_vals tenantId c (List.mem_of_mem_take hc))
  have h2 : ((tenantHashHex tenantId).take 8).length ≤ 8 := by
    simp [List.length_take_le]
  calc hexToNat ((tenantHashHex tenantId).take 8)
      < 16 ^ ((tenantHashHex tenantId).take 8).length := h1
    _ ≤ 16 ^ 8 := Nat.pow_le_pow_right (by norm_num) h2
    _ = 2 ^ 32 := by norm_num

/-! ### migrate_tenant branch lemmas -/

theorem migrateTenant_not_cached (st : RouterState) (t g : String)
    (h : dictGet? st.cache t = none) : migrateTenant st t g = (false, st) := by
  simp [migrateTenant, h]

theorem migrateTenant_already (st : RouterState) (t g : String)
    (h : dictGet? st.cache t = some g) : migrateTenant st t g = (true, st) := by
  simp [migrateTenant, h]

theorem migrateTenant_at_capacity (st : RouterState) (t g src : String)
    (h1 : dictGet? st.cache t = some src) (h2 : src ≠ g)
    (h3 : (st.maxTenantsPerShard : ℤ) ≤ dictGetD st.counts g 0) :
    migrateTenant st t g = (false, st) := by
  simp [migrateTenant, h1, h2, h3]

theorem migrateTenant_config (st : RouterState) (t g : String) :
    (migrateTenant st t g).2.maxTenantsPerShard = st.maxTenantsPerShard ∧
    (migrateTenant st t g).2.rebalanceThresholdPercent = st.rebalanceThresholdPercent ∧
    (migrateTenant st t g).2.availableShards = st.availableShards ∧
    (migrateTenant st t g).2.numShards = st.numShards := by
  unfold migrateTenant
  cases h : dictGet? st.cache t with
  | none => simp
  | some src =>
    by_cases h2 : src = g
    · simp [h2]
    · by_cases h3 : (st.maxTenantsPerShard : ℤ) ≤ dictGetD st.counts g 0
      · simp [h2, h3]
      · simp [h2, h3]

theorem migrateTenant_count_le (st : RouterState) (t g sid : String) :
    dictGetD (migrateTenant st t g).2.counts sid 0 ≤
      max (dictGetD st.counts sid 0) (st.maxTenantsPerShard : ℤ) := by
  unfold migrateTenant
  cases h : dictGet? st.cache t with
  | none => exact le_max_left _ _
  | some src =>
    by_cases h2 : src = g
    · simp [h2, le_max_left]
    · by_cases h3 : (st.maxTenantsPerShard : ℤ) ≤ dictGetD st.counts g 0
      · simp [h2, h3, le_max_left]
      · simp only [h2, h3, if_false, if_neg, ite_false]
        by_cases hg : sid = g
        · subst hg
          rw [dictGetD_set_self, dictGetD_set_ne _ _ _ _ _ (Ne.symm h2)]
          have : dictGetD st.counts sid 0 + 1 ≤ (st.maxTenantsPerShard : ℤ) := by omega
          exact le_trans this (le_max_right _ _)
        · rw [dictGetD_set_ne _ _ _ _ _ hg]
          by_cases hsrc : sid = src
          · subst hsrc
            rw [dictGetD_set_self]
            exact le_trans (by omega) (le_max_left (dictGetD st.counts sid 0) _)
          · rw [dictGetD_set_ne _ _ _ _ _ hsrc]
            exact le_max_left _ _

theorem migrateTenant_count_noninc (st : RouterState) (t g sid : String) (hne : g ≠ sid) :
    dictGetD (migrateTenant st t g).2.counts sid 0 ≤ dictGetD st.counts sid 0 := by
  unfold migrateTenant
  cases h : dictGet? st.cache t with
  | none => exact le_refl _
  | some src =>
    by_cases h2 : src = g
    · simp [h2]
    · by_cases h3 : (st.maxTenantsPerShard : ℤ) ≤ dictGetD st.counts g 0
      · simp [h2, h3]
      · simp only [h2, h3, if_false, if_neg, ite_false]
        rw [dictGetD_set_ne _ _ _ _ _ (Ne.symm hne)]
        by_cases hsrc : sid = src
        · subst hsrc
          rw [dictGetD_set_self]
          omega
        · rw [dictGetD_set_ne _ _ _ _ _ hsrc]

/-! ### Claim theorems -/

/-- C1: the routing function hashes the tenant id with SHA-256, reads the
first 8 hex characters as an unsigned 32-bit value v, computes
v mod N + 1, and formats it as aipress-shard- followed by the 3-digit
zero-padded shard number; two consecutive lookups of the same tenant
(without intervening migration or registration) return the identical shard
id, and tenant acme under N = 1000 always resolves to aipress-shard-358. -/
theorem c1_consistent_hash_routing :
    (∀ (numShards : Nat) (tenantId : String),
      calculateShardId numShards tenantId =
        "aipress-shard-" ++ zeroPad3 (hexToNat ((tenantHashHex tenantId).take 8) % numShards + 1)) ∧
    (∀ tenantId : String, hexToNat ((tenantHashHex tenantId).take 8) < 2 ^ 32) ∧
    (∀ (st : RouterState) (tenantId : String),
      (getShardForTenant (getShardForTenant st tenantId).2 tenantId).1 =
        (getShardForTenant st tenantId).1) ∧
    calculateShardId 1000 "acme" = "aipress-shard-358" ∧
    (getShardForTenant (freshRouter 1000) "acme").1 = "aipress-shard-358" := by
  refine ⟨fun _ _ => rfl, tenantHash32_lt, fun st tenantId => ?_, by decide, by decide⟩
  cases h : dictGet? st.cache tenantId with
  | some sid => simp [getShardForTenant, h]
  | none => simp [getShardForTenant, h, dictGet?_set_self]

/-- C4: health derivation of check_shard_health: all three sub-checks pass
means healthy, a passing control endpoint with any failing database or
storage sub-check means degraded, and a failing control endpoint means
unhealthy regardless of the other two. -/
theorem c4_health_derivation :
    deriveHealth true true true = .healthy ∧
    deriveHealth true false true = .degraded ∧
    deriveHealth true true false = .degraded ∧
    deriveHealth true false false = .degraded ∧
    (∀ databaseHealthy storageHealthy : Bool,
      deriveHealth false databaseHealthy storageHealthy = .unhealthy) := by
  decide

/-- C6 counterexample: registering the same tenant in the same shard twice
leaves the routing cache with a single entry but drives the shard's
in-memory tenant counter to 2, not the 1 the claimed idempotence requires,
so the state after two calls differs from the state after one. -/
theorem c6_counterexample :
    dictGetD (registerTenant (registerTenant (freshRouter 1000) 0 "initech" shardA)
        0 "initech" shardA).counts shardA 0 = 2 ∧
    dictGetD (registerTenant (freshRouter 1000) 0 "initech" shardA).counts shardA 0 = 1 ∧
    getTotalTenantCount (registerTenant (registerTenant (freshRouter 1000) 0 "initech" shardA)
        0 "initech" shardA) = 1 := by
  decide

/-- C6 amended: register_tenant is idempotent on the routing cache and on
the Store record (for an identical registration timestamp), but not on the
shard's in-memory tenant counter: every call increments it, so after the
second call the counter is one higher than after the first. -/
theorem c6_register_idempotency (st : RouterState) (now : Nat) (tenantId shardId : String) :
    (registerTenant (registerTenant st now tenantId shardId) now tenantId shardId).cache =
      (registerTenant st now tenantId shardId).cache ∧
    (registerTenant (registerTenant st now tenantId shardId) now tenantId shardId).store =
      (registerTenant st now tenantId shardId).store ∧
    dictGetD (registerTenant (registerTenant st now tenantId shardId)
        now tenantId shardId).counts shardId 0 =
      dictGetD (registerTenant st now tenantId shardId).counts shardId 0 + 1 := by
  refine ⟨?_, ?_, ?_⟩
  · simp [registerTenant, dictSet_idem]
  · simp [registerTenant, dictSet_idem]
  · simp [registerTenant, dictGetD_set_self]

/-- C3 counterexample: in a state where shard 001 holds exactly
max_tenants_per_shard = 50 registered tenants, migrating the registered
tenant t0 to its own (at-capacity) shard returns true, not the false the
claim demands for every at-capacity target. -/
theorem c3_counterexample :
    dictGet? fullState.cache "t0" = some shardA ∧
    dictGetD fullState.counts shardA 0 = (fullState.maxTenantsPerShard : ℤ) ∧
    (migrateTenant fullState "t0" shardA).1 = true := by
  decide

/-- C3 amended: for a registered tenant whose current shard differs from
the target, migrate_tenant against a target at (or above) capacity returns
false and leaves the full router state unchanged; when the tenant is
already on the target shard the already-at-target no-op check fires first
and the call returns true (also with no state change) even if that shard
is at capacity. -/
theorem c3_migrate_capacity (st : RouterState) (tenantId targetShardId sourceShardId : String)
    (h : dictGet? st.cache tenantId = some sourceShardId) :
    (sourceShardId ≠ targetShardId →
      (st.maxTenantsPerShard : ℤ) ≤ dictGetD st.counts targetShardId 0 →
      migrateTenant st tenantId targetShardId = (false, st)) ∧
    (sourceShardId = targetShardId → migrateTenant st tenantId targetShardId = (true, st)) := by
  constructor
  · intro h2 h3
    exact migrateTenant_at_capacity st tenantId targetShardId sourceShardId h h2 h3
  · intro h2
    subst h2
    exact migrateTenant_already st tenantId sourceShardId h

/-- C3 witness: concrete instances of both branches of the amended claim:
tenant u0 (on shard 002) cannot be migrated to the full shard 001 and the
state is untouched, while migrating t0 (already on shard 001) to shard 001
no-op succeeds. -/
theorem c3_migrate_capacity_witness :
    migrateTenant fullStatePlus "u0" shardA = (false, fullStatePlus) ∧
    migrateTenant fullStatePlus "t0" shardA = (true, fullStatePlus) := by
  constructor
  · exact (c3_migrate_capacity fullStatePlus "u0" shardA shardB (by decide)).1
      (by decide) (by decide)
  · exact (c3_migrate_capacity fullStatePlus "t0" shardA shardA (by decide)).2 rfl

/-- C10 counterexample: after a bare route lookup of an unregistered
tenant on a fresh router, unregister_tenant runs its full removal branch
(the cache ends empty) yet the target shard's counter — never incremented
by the lookup — stays at 0 under max(0, c-1) instead of decreasing by
one. -/
theorem c10_counterexample :
    dictGetD (unregisterTenant (getShardForTenant (freshRouter 1000) "globex").2
        "globex").counts (getShardForTenant (freshRouter 1000) "globex").1 0 =
      dictGetD (getShardForTenant (freshRouter 1000) "globex").2.counts
        (getShardForTenant (freshRouter 1000) "globex").1 0 ∧
    dictGetD (unregisterTenant (getShardForTenant (freshRouter 1000) "globex").2
        "globex").counts (getShardForTenant (freshRouter 1000) "globex").1 0 ≠
      dictGetD (getShardForTenant (freshRouter 1000) "globex").2.counts
        (getShardForTenant (freshRouter 1000) "globex").1 0 - 1 ∧
    (unregisterTenant (getShardForTenant (freshRouter 1000) "globex").2 "globex").cache = [] := by
  decide

/-- C10 amended: get_shard_for_tenant is not side-effect-free: looking up a
tenant absent from the routing cache stores the hash-computed assignment in
the cache, so get_total_tenant_count grows by one, and a subsequent
unregister_tenant for that id removes the cache entry, issues the Store
delete, and sets the target shard's counter to max(0, c-1) — an actual
decrement only when the counter was positive (the bare lookup never
incremented it). -/
theorem c10_lookup_side_effect (st : RouterState) (tenantId : String)
    (h : dictGet? st.cache tenantId = none) :
    (getShardForTenant st tenantId).1 = calculateShardId st.numShards tenantId ∧
    dictGet? (getShardForTenant st tenantId).2.cache tenantId =
      some (calculateShardId st.numShards tenantId) ∧
    getTotalTenantCount (getShardForTenant st tenantId).2 = getTotalTenantCount st + 1 ∧
    (unregisterTenant (getShardForTenant st tenantId).2 tenantId).cache =
      dictDel (getShardForTenant st tenantId).2.cache tenantId ∧
    (unregisterTenant (getShardForTenant st tenantId).2 tenantId).store =
      dictDel (getShardForTenant st tenantId).2.store tenantId ∧
    (unregisterTenant (getShardForTenant st tenantId).2 tenantId).counts =
      dictSet (getShardForTenant st tenantId).2.counts (calculateShardId st.numShards tenantId)
        (max 0 (dictGetD (getShardForTenant st tenantId).2.counts
          (calculateShardId st.numShards tenantId) 0 - 1)) := by
  have hset : dictGet? (dictSet st.cache tenantId (calculateShardId st.numShards tenantId))
      tenantId = some (calculateShardId st.numShards tenantId) := dictGet?_set_self _ _ _
  refine ⟨by simp [getShardForTenant, h], by simp [getShardForTenant, h, hset], ?_, ?_, ?_, ?_⟩
  · simp [getShardForTenant, h, getTotalTenantCount, dictSet_length_of_absent st.cache tenantId _ h]
  · simp [getShardForTenant, h, unregisterTenant, hset]
  · simp [getShardForTenant, h, unregisterTenant, hset]
  · simp [getShardForTenant, h, unregisterTenant, hset]

/-- C10 witness: the amended claim instantiated on a fresh router and the
unregistered tenant globex. -/
theorem c10_lookup_side_effect_witness :
    (getShardForTenant (freshRouter 1000) "globex").1 =
      calculateShardId (freshRouter 1000).numShards "globex" ∧
    dictGet? (getShardForTenant (freshRouter 1000) "globex").2.cache "globex" =
      some (calculateShardId (freshRouter 1000).numShards "globex") ∧
    getTotalTenantCount (getShardForTenant (freshRouter 1000) "globex").2 =
      getTotalTenantCount (freshRouter 1000) + 1 ∧
    (unregisterTenant (getShardForTenant (freshRouter 1000) "globex").2 "globex").cache =
      dictDel (getShardForTenant (freshRouter 1000) "globex").2.cache "globex" ∧
    (unregisterTenant (getShardForTenant (freshRouter 1000) "globex").2 "globex").store =
      dictDel (getShardForTenant (freshRouter 1000) "globex").2.store "globex" ∧
    (unregisterTenant (getShardForTenant (freshRouter 1000) "globex").2 "globex").counts =
      dictSet (getShardForTenant (freshRouter 1000) "globex").2.counts
        (calculateShardId (freshRouter 1000).numShards "globex")
        (max 0 (dictGetD (getShardForTenant (freshRouter 1000) "globex").2.counts
          (calculateShardId (freshRouter 1000).numShards "globex") 0 - 1)) :=
  c10_lookup_side_effect (freshRouter 1000) "globex" (by decide)

/-! ### C2: get_optimal_shard -/

theorem find?_min_util (M : ℕ) (hM : 0 < M) :
    ∀ l : List (String × ℚ × ℤ), l.Pairwise ascUtil →
      (∀ z ∈ l, z.2.1 = ((z.2.2 : ℚ)) / (M : ℚ)) →
      ∀ x, l.find? (fun z => decide (z.2.2 < (M : ℤ))) = some x →
      ∀ y ∈ l, x.2.1 ≤ y.2.1 := by
  intro l
  induction l with
  | nil => intro _ _ x hx; simp at hx
  | cons z zs ih =>
    intro hp hval x hfind y hy
    by_cases hz : z.2.2 < (M : ℤ)
    · rw [List.find?_cons_of_pos _ (by simpa using hz)] at hfind
      obtain rfl : z = x := by simpa using hfind
      rcases List.mem_cons.mp hy with rfl | hy'
      · exact le_refl _
      · exact List.rel_of_pairwise_cons hp hy'
    · rw [List.find?_cons_of_neg _ (by simpa using hz)] at hfind
      rcases List.mem_cons.mp hy with rfl | hy'
      · have hxmem : x ∈ zs := List.mem_of_find?_eq_some hfind
        have hxpred : x.2.2 < (M : ℤ) := by simpa using List.find?_some hfind
        have hxu : x.2.1 < 1 := by
          rw [hval x (List.mem_cons_of_mem y hxmem), div_lt_one (by exact_mod_cast hM)]
          exact_mod_cast hxpred
        have hyu : (1 : ℚ) ≤ y.2.1 := by
          rw [hval y (List.mem_cons_self y zs), one_le_div (by exact_mod_cast hM)]
          exact_mod_cast not_lt.mp hz
        linarith
      · exact ih (List.Pairwise.of_cons hp)
          (fun w hw => hval w (List.mem_cons_of_mem z hw)) x hfind y hy'

/-- C2 counterexample: 51 tenants registered into the single known shard
(register_tenant never checks capacity), so get_optimal_shard raises the
capacity-exhausted failure although the shard's tenant_count is 51, not
equal to max_tenants_per_shard = 50 — refuting the claimed "exactly when
every known shard's tenant_count equals max" characterization. -/
theorem c2_counterexample :
    getOptimalShard overfullState = .error noCapacityMsg ∧
    ¬ (∀ sid ∈ overfullState.availableShards,
        dictGetD overfullState.counts sid 0 = (overfullState.maxTenantsPerShard : ℤ)) ∧
    dictGetD overfullState.counts shardA 0 = 51 ∧
    (overfullState.maxTenantsPerShard : ℤ) = 50 := by
  decide

/-- C2 amended: get_optimal_shard raises the capacity-exhausted failure
(and only that failure, never a not-found one) exactly when no known shard
has tenant_count strictly below max_tenants_per_shard — i.e. all counts are
at or above max, not necessarily equal to it; when some known shard has
spare capacity it never raises and returns a shard of minimal utilization
with spare capacity (the first below-capacity entry of the stable
ascending-utilization sort). -/
theorem c2_optimal_shard (st : RouterState) (hM : 0 < st.maxTenantsPerShard) :
    (getOptimalShard st = .error noCapacityMsg ↔
      ∀ sid ∈ st.availableShards, (st.maxTenantsPerShard : ℤ) ≤ dictGetD st.counts sid 0) ∧
    (∀ e, getOptimalShard st = .error e → e = noCapacityMsg) ∧
    (∀ sid, getOptimalShard st = .ok sid →
      sid ∈ st.availableShards ∧
      dictGetD st.counts sid 0 < (st.maxTenantsPerShard : ℤ) ∧
      ∀ other ∈ st.availableShards,
        getShardUtilization st sid ≤ getShardUtilization st other) := by
  have hperm := List.perm_insertionSort ascUtil (st.availableShards.map (fun sid =>
    let tenantCount := dictGetD st.counts sid 0
    (sid, utilOf tenantCount st.maxTenantsPerShard, tenantCount)))
  cases hf : (List.insertionSort ascUtil (st.availableShards.map (fun sid =>
      let tenantCount := dictGetD st.counts sid 0
      (sid, utilOf tenantCount st.maxTenantsPerShard, tenantCount)))).find?
        (fun x => decide (x.2.2 < (st.maxTenantsPerShard : ℤ))) with
  | none =>
    have hres : getOptimalShard st = .error noCapacityMsg := by
      simp only [getOptimalShard, hf]
    have hall := List.find?_eq_none.mp hf
    refine ⟨iff_of_true hres ?_, ?_, ?_⟩
    · intro sid hsid
      have := hall _ (hperm.symm.subset (List.mem_map_of_mem _ hsid))
      simpa using this
    · intro e he
      rw [hres] at he
      injection he with h
      exact h.symm
    · intro sid hok
      rw [hres] at hok
      exact Except.noConfusion hok
  | some x =>
    have hres : getOptimalShard st = .ok x.1 := by
      simp only [getOptimalShard, hf]
    obtain ⟨sid0, hsid0, hx⟩ := List.mem_map.mp (hperm.subset (List.mem_of_find?_eq_some hf))
    have hxpred : x.2.2 < (st.maxTenantsPerShard : ℤ) := by
      simpa using List.find?_some hf
    have hmin := find?_min_util st.maxTenantsPerShard hM _
      (List.sorted_insertionSort ascUtil _)
      (fun z hz => by
        obtain ⟨sid', _, hz'⟩ := List.mem_map.mp (hperm.subset hz)
        cases hz'
        exact utilOf_eq _ _)
      x hf
    cases hx
    refine ⟨iff_of_false (by rw [hres]; exact fun he => Except.noConfusion he) ?_, ?_, ?_⟩
    · intro hallfull
      exact absurd (hallfull sid0 hsid0) (not_le.mpr hxpred)
    · intro e he
      rw [hres] at he
      exact Except.noConfusion he
    · intro sid hok
      rw [hres] at hok
      injection hok with hok
      cases hok
      refine ⟨hsid0, hxpred, ?_⟩
      intro other hother
      exact hmin _ (hperm.symm.subset (List.mem_map_of_mem _ hother))

/-- C2 witness: the amended characterization instantiated on the reachable
51-tenants-in-one-shard state: the capacity-exhausted error occurs there
because the single known shard is at or above capacity. -/
theorem c2_optimal_shard_witness :
    getOptimalShard overfullState = .error noCapacityMsg ↔
      ∀ sid ∈ overfullState.availableShards,
        (overfullState.maxTenantsPerShard : ℤ) ≤ dictGetD overfullState.counts sid 0 :=
  (c2_optimal_shard overfullState (by decide)).1

/-! ### C5: persistence behavior of check_shard_health -/

/-- C5 counterexample: the shard is known to the Store, but when the store
read inside check_shard_health raises, the invocation takes the except
branch (the error counter moves to 1 and the check reports errored) while
the Store still holds the untouched record — health unknown, no
last-health-check timestamp. Nothing was persisted, refuting the claim that
every invocation persists the updated health and timestamp. -/
theorem c5_counterexample :
    (dictGet? monitorInit.store shardA).isSome = true ∧
    (checkShardHealth envGetShardRaises 7 shardA monitorInit).2 = .errored ∧
    (checkShardHealth envGetShardRaises 7 shardA monitorInit).1.store = monitorInit.store ∧
    dictGet? (checkShardHealth envGetShardRaises 7 shardA monitorInit).1.store shardA =
      some ⟨shardA, .unknown, none⟩ ∧
    dictGetD (checkShardHealth envGetShardRaises 7 shardA monitorInit).1.healthCheckErrors
      shardA 0 = 1 := by
  decide

/-- C5 amended: check_shard_health persists the updated health and
last-health-check timestamp to the Store only on the non-raising path, on
which it also resets the consecutive-error counter to zero; on any
exception (a raising store read or store write) it marks the shard
unhealthy in memory and increments the consecutive-error counter, but the
Store — and on a raising read even the in-memory last-check map — is left
unchanged. -/
theorem c5_health_persistence (env : CheckEnv) (now : Nat) (sid : String)
    (st : MonitorState) (shard : ShardRec) (hstore : dictGet? st.store sid = some shard) :
    (env.getShardRaises = false → env.saveShardRaises = false →
      (checkShardHealth env now sid st).2 = .completed
        (deriveHealth (checkControlPlaneHealth env.probe) env.databaseHealthy
          env.storageHealthy) ∧
      dictGet? (checkShardHealth env now sid st).1.store sid = some
        { shard with
          health := deriveHealth (checkControlPlaneHealth env.probe) env.databaseHealthy
            env.storageHealthy
          lastHealthCheck := some now } ∧
      dictGetD (checkShardHealth env now sid st).1.healthCheckErrors sid 0 = 0 ∧
      dictGet? (checkShardHealth env now sid st).1.lastHealthCheck sid = some now) ∧
    (env.getShardRaises = true →
      (checkShardHealth env now sid st).2 = .errored ∧
      (checkShardHealth env now sid st).1.store = st.store ∧
      (checkShardHealth env now sid st).1.lastHealthCheck = st.lastHealthCheck ∧
      dictGetD (checkShardHealth env now sid st).1.healthCheckErrors sid 0 =
        dictGetD st.healthCheckErrors sid 0 + 1 ∧
      dictGet? (checkShardHealth env now sid st).1.shardHealth sid = some .unhealthy) ∧
    (env.getShardRaises = false → env.saveShardRaises = true →
      (checkShardHealth env now sid st).2 = .errored ∧
      (checkShardHealth env now sid st).1.store = st.store ∧
      dictGetD (checkShardHealth env now sid st).1.healthCheckErrors sid 0 = 1 ∧
      dictGet? (checkShardHealth env now sid st).1.shardHealth sid = some .unhealthy) := by
  refine ⟨?_, ?_, ?_⟩
  · intro h1 h2
    simp [checkShardHealth, h1, h2, hstore, dictGet?_set_self, dictGetD_set_self]
  · intro h1
    simp [checkShardHealth, h1, checkExceptPath, dictGet?_set_self, dictGetD_set_self]
  · intro h1 h2
    simp [checkShardHealth, h1, h2, hstore, checkExceptPath, dictGet?_set_self,
      dictGetD_set_self]

/-- C5 witness: the amended behavior at concrete inputs: a healthy probe
with a working store persists health and timestamp and zeroes the counter,
and the raising-store-read environment increments the counter without
persisting. -/
theorem c5_health_persistence_witness :
    ((checkShardHealth envOk 3 shardA monitorInit).2 = .completed
        (deriveHealth (checkControlPlaneHealth envOk.probe) envOk.databaseHealthy
          envOk.storageHealthy) ∧
      dictGet? (checkShardHealth envOk 3 shardA monitorInit).1.store shardA = some
        { (⟨shardA, .unknown, none⟩ : ShardRec) with
          health := deriveHealth (checkControlPlaneHealth envOk.probe) envOk.databaseHealthy
            envOk.storageHealthy
          lastHealthCheck := some 3 } ∧
      dictGetD (checkShardHealth envOk 3 shardA monitorInit).1.healthCheckErrors shardA 0 = 0 ∧
      dictGet? (checkShardHealth envOk 3 shardA monitorInit).1.lastHealthCheck shardA =
        some 3) ∧
    ((checkShardHealth envGetShardRaises 3 shardA monitorInit).2 = .errored ∧
      (checkShardHealth envGetShardRaises 3 shardA monitorInit).1.store = monitorInit.store ∧
      (checkShardHealth envGetShardRaises 3 shardA monitorInit).1.lastHealthCheck =
        monitorInit.lastHealthCheck ∧
      dictGetD (checkShardHealth envGetShardRaises 3 shardA monitorInit).1.healthCheckErrors
        shardA 0 = dictGetD monitorInit.healthCheckErrors shardA 0 + 1 ∧
      dictGet? (checkShardHealth envGetShardRaises 3 shardA monitorInit).1.shardHealth shardA =
        some .unhealthy) :=
  ⟨(c5_health_persistence envOk 3 shardA monitorInit ⟨shardA, .unknown, none⟩ (by decide)).1
      rfl rfl,
    (c5_health_persistence envGetShardRaises 3 shardA monitorInit ⟨shardA, .unknown, none⟩
      (by decide)).2.1 rfl⟩

/-! ### C9: alerting over consecutive failing cycles -/

/-- C9 counterexample: a shard whose control-endpoint probe raises in 3
consecutive monitoring cycles is marked unhealthy, but the monitor produces
zero high_error_rate alerts for it — not the claimed exactly one — because
the probe helper swallows the exception, the check then completes on its
success path and resets the consecutive-error counter to 0 every cycle. -/
theorem c9_counterexample :
    dictGet? (runMonitoringCycles probeTimeoutEnvs 3 monitorInit).shardHealth shardA =
      some .unhealthy ∧
    alertCount (runMonitoringCycles probeTimeoutEnvs 3 monitorInit) "high_error_rate" shardA
      = 0 ∧
    alertCount (runMonitoringCycles probeTimeoutEnvs 3 monitorInit) "high_error_rate" shardA
      ≠ 1 := by
  decide

/-- C9 amended: under 3 consecutive cycles of a raising control-endpoint
probe the shard is marked unhealthy with its consecutive-error counter
reset to 0 each cycle, yielding one shard_unhealthy alert per cycle and no
high_error_rate alert even after a fourth cycle (the probe helper catches
the exception, so the check completes successfully); high_error_rate alerts
arise only when check_shard_health itself raises — e.g. a raising store
read — and then one fires on every cycle from the third consecutive
failure onward (1 after three cycles, 2 after four), rather than exactly
once per streak. Unaffected shards produce no high_error_rate alerts. -/
theorem c9_alerting_behavior :
    (dictGet? (runMonitoringCycles probeTimeoutEnvs 3 monitorInit).shardHealth shardA =
        some .unhealthy ∧
      dictGetD (runMonitoringCycles probeTimeoutEnvs 3 monitorInit).healthCheckErrors shardA 0
        = 0 ∧
      alertCount (runMonitoringCycles probeTimeoutEnvs 3 monitorInit) "high_error_rate" shardA
        = 0 ∧
      alertCount (runMonitoringCycles probeTimeoutEnvs 3 monitorInit) "shard_unhealthy" shardA
        = 3 ∧
      alertCount (runMonitoringCycles probeTimeoutEnvs 4 monitorInit) "high_error_rate" shardA
        = 0) ∧
    (dictGet? (runMonitoringCycles storeFailEnvs 3 monitorInit).shardHealth shardA =
        some .unhealthy ∧
      alertCount (runMonitoringCycles storeFailEnvs 2 monitorInit) "high_error_rate" shardA
        = 0 ∧
      alertCount (runMonitoringCycles storeFailEnvs 3 monitorInit) "high_error_rate" shardA
        = 1 ∧
      alertCount (runMonitoringCycles storeFailEnvs 4 monitorInit) "high_error_rate" shardA
        = 2) ∧
    alertCount (runMonitoringCycles probeTimeoutEnvs 3 monitorInit) "high_error_rate" shardB
      = 0 := by
  decide

/-! ### C7 and C8: rebalancing invariants -/

theorem migStarIn_trans (N : String → Prop) (a b c : RouterState)
    (h1 : MigStarIn N a b) (h2 : MigStarIn N b c) : MigStarIn N a c := by
  induction h2 with
  | refl => exact h1
  | tail r' t g _ hN ih => exact .tail r' t g ih hN

theorem migStarIn_config (N : String → Prop) (r r' : RouterState) (h : MigStarIn N r r') :
    r'.maxTenantsPerShard = r.maxTenantsPerShard ∧
    r'.rebalanceThresholdPercent = r.rebalanceThresholdPercent ∧
    r'.availableShards = r.availableShards := by
  induction h with
  | refl => exact ⟨rfl, rfl, rfl⟩
  | tail r2 t g _ _ ih =>
    obtain ⟨e1, e2, e3⟩ := ih
    obtain ⟨f1, f2, f3, _⟩ := migrateTenant_config r2 t g
    exact ⟨f1.trans e1, f2.trans e2, f3.trans e3⟩

theorem migStarIn_count_le (N : String → Prop) (r r' : RouterState) (h : MigStarIn N r r')
    (sid : String) :
    dictGetD r'.counts sid 0 ≤ max (dictGetD r.counts sid 0) (r.maxTenantsPerShard : ℤ) := by
  induction h with
  | refl => exact le_max_left _ _
  | tail r2 t g hsub _ ih =>
    have hMeq : r2.maxTenantsPerShard = r.maxTenantsPerShard := (migStarIn_config N r r2 hsub).1
    calc dictGetD (migrateTenant r2 t g).2.counts sid 0
        ≤ max (dictGetD r2.counts sid 0) (r2.maxTenantsPerShard : ℤ) :=
          migrateTenant_count_le r2 t g sid
      _ ≤ max (max (dictGetD r.counts sid 0) (r.maxTenantsPerShard : ℤ))
            (r.maxTenantsPerShard : ℤ) := by
          rw [hMeq]
          exact max_le_max ih (le_refl _)
      _ = max (dictGetD r.counts sid 0) (r.maxTenantsPerShard : ℤ) := by
          rw [max_assoc, max_self]

theorem migStarIn_count_noninc (N : String → Prop) (r r' : RouterState) (h : MigStarIn N r r')
    (sid : String) (hsid : ¬ N sid) :
    dictGetD r'.counts sid 0 ≤ dictGetD r.counts sid 0 := by
  induction h with
  | refl => exact le_refl _
  | tail r2 t g _ hN ih =>
    exact le_trans (migrateTenant_count_noninc r2 t g sid (fun e => hsid (e ▸ hN))) ih

theorem rebInner_star (N : String → Prop) (source : String) :
    ∀ (tenants : List String) (s : RebState), (∀ x ∈ s.under, N x.shardId) →
      MigStarIn N s.router (rebInner source tenants s).router ∧
      (∀ x ∈ (rebInner source tenants s).under, N x.shardId) := by
  intro tenants
  induction tenants with
  | nil => intro s hs; exact ⟨.refl, hs⟩
  | cons t ts ih =>
    intro s hs
    obtain ⟨r, under, migs⟩ := s
    cases under with
    | nil => exact ⟨.refl, hs⟩
    | cons tgt rest =>
      have hNtgt : N tgt.shardId := hs tgt (List.mem_cons_self tgt rest)
      have step : MigStarIn N r (migrateTenant r t tgt.shardId).2 :=
        .tail r t tgt.shardId .refl hNtgt
      simp only [rebInner]
      by_cases hm : (migrateTenant r t tgt.shardId).1 = true
      · rw [if_pos hm]
        by_cases hcross : utilOf (tgt.tenantCount + 1) r.maxTenantsPerShard >
            pct r.rebalanceThresholdPercent
        · rw [if_pos hcross]
          obtain ⟨h1, h2⟩ := ih ⟨(migrateTenant r t tgt.shardId).2, rest,
            migs ++ [⟨t, source, tgt.shardId⟩]⟩
            (fun x hx => hs x (List.mem_cons_of_mem tgt hx))
          exact ⟨migStarIn_trans N _ _ _ step h1, h2⟩
        · rw [if_neg hcross]
          obtain ⟨h1, h2⟩ := ih ⟨(migrateTenant r t tgt.shardId).2,
            { tgt with
              tenantCount := tgt.tenantCount + 1
              utilization := utilOf (tgt.tenantCount + 1) r.maxTenantsPerShard }
              :: rest,
            migs ++ [⟨t, source, tgt.shardId⟩]⟩
            (by
              intro x hx
              rcases List.mem_cons.mp hx with rfl | hx'
              · exact hNtgt
              · exact hs x (List.mem_cons_of_mem tgt hx'))
          exact ⟨migStarIn_trans N _ _ _ step h1, h2⟩
      · rw [if_neg hm]
        obtain ⟨h1, h2⟩ := ih ⟨(migrateTenant r t tgt.shardId).2, tgt :: rest, migs⟩ hs
        exact ⟨migStarIn_trans N _ _ _ step h1, h2⟩

theorem rebOuter_star (N : String → Prop) :
    ∀ (overloaded : List SStat) (s : RebState), (∀ x ∈ s.under, N x.shardId) →
      MigStarIn N s.router (rebOuter overloaded s).router ∧
      (∀ x ∈ (rebOuter overloaded s).under, N x.shardId) := by
  intro overloaded
  induction overloaded with
  | nil => intro s hs; exact ⟨.refl, hs⟩
  | cons o os ih =>
    intro s hs
    simp only [rebOuter]
    by_cases he : s.under.isEmpty = true
    · rw [if_pos he]; exact ⟨.refl, hs⟩
    · rw [if_neg he]
      obtain ⟨h1, h2⟩ := rebInner_star N o.shardId _ s hs
      obtain ⟨h3, h4⟩ := ih _ h2
      exact ⟨migStarIn_trans N _ _ _ h1 h3, h4⟩

theorem underloaded_not_over (st : RouterState) (x : SStat)
    (hx : x ∈ (List.insertionSort descUtil (st.availableShards.map (mkStat st))).filter
      (fun s => ! s.overThreshold)) :
    ¬ (st.rebalanceThresholdPercent / 100 < getShardUtilization st x.shardId) := by
  rw [List.mem_filter] at hx
  obtain ⟨hmem, hover⟩ := hx
  obtain ⟨sid, _, hx'⟩ := List.mem_map.mp ((List.perm_insertionSort descUtil _).subset hmem)
  cases hx'
  intro hgt
  simp only [mkStat, Bool.not_eq_true'] at hover
  rw [decide_eq_false_iff_not] at hover
  exact hover (by rw [pct_eq]; exact hgt)

/-- C7: rebalance safety: after one rebalance_tenants call, no shard that
was above the rebalance threshold has strictly increased its utilization
(its tenant count only falls, since migration targets are drawn exclusively
from the initially-underloaded pool), and no shard ends above
max_tenants_per_shard unless it already was (migrate_tenant refuses targets
at capacity, so every count stays bounded by max of its initial value and
the capacity). -/
theorem c7_rebalance_safety (st : RouterState) (hM : 0 < st.maxTenantsPerShard) :
    (∀ sid, st.rebalanceThresholdPercent / 100 < getShardUtilization st sid →
      getShardUtilization (rebalanceTenants st).1 sid ≤ getShardUtilization st sid) ∧
    (∀ sid, dictGetD (rebalanceTenants st).1.counts sid 0 ≤
      max (dictGetD st.counts sid 0) (st.maxTenantsPerShard : ℤ)) := by
  have hstar := rebOuter_star
    (fun g => ∃ x ∈ (List.insertionSort descUtil (st.availableShards.map (mkStat st))).filter
      (fun s => ! s.overThreshold), x.shardId = g)
    ((List.insertionSort descUtil (st.availableShards.map (mkStat st))).filter
      (fun s => s.overThreshold))
    ⟨st, (List.insertionSort descUtil (st.availableShards.map (mkStat st))).filter
      (fun s => ! s.overThreshold), []⟩
    (fun x hx => ⟨x, hx, rfl⟩)
  have hfinal : MigStarIn
      (fun g => ∃ x ∈ (List.insertionSort descUtil (st.availableShards.map (mkStat st))).filter
        (fun s => ! s.overThreshold), x.shardId = g)
      st (rebalanceTenants st).1 := hstar.1
  constructor
  · intro sid hover
    have hnot : ¬ ∃ x ∈ (List.insertionSort descUtil
        (st.availableShards.map (mkStat st))).filter
        (fun s => ! s.overThreshold), x.shardId = sid := by
      rintro ⟨x, hx, rfl⟩
      exact underloaded_not_over st x hx hover
    have hcount := migStarIn_count_noninc _ st _ hfinal sid hnot
    have hMeq : (rebalanceTenants st).1.maxTenantsPerShard = st.maxTenantsPerShard :=
      (migStarIn_config _ st _ hfinal).1
    rw [getShardUtilization, getShardUtilization, hMeq, utilOf_eq, utilOf_eq]
    rw [div_le_div_iff_of_pos_right (by exact_mod_cast hM)]
    exact_mod_cast hcount
  · intro sid
    exact migStarIn_count_le _ st _ hfinal sid

/-- C7 witness: on the reachable three-shard state with shard 001 above the
threshold at 45 of 50 tenants, rebalancing does not raise that shard's
utilization, and no shard exceeds the capacity bound. -/
theorem c7_rebalance_safety_witness :
    getShardUtilization (rebalanceTenants rebalState).1 shardA ≤
      getShardUtilization rebalState shardA ∧
    dictGetD (rebalanceTenants rebalState).1.counts shardB 0 ≤
      max (dictGetD rebalState.counts shardB 0) (rebalState.maxTenantsPerShard : ℤ) := by
  have hover : pct rebalState.rebalanceThresholdPercent <
      getShardUtilization rebalState shardA := by decide
  exact ⟨(c7_rebalance_safety rebalState (by decide)).1 shardA
      (by rw [← pct_eq]; exact hover),
    (c7_rebalance_safety rebalState (by decide)).2 shardB⟩

theorem utilOf_mono (c c' : ℤ) (M : ℕ) (h : c ≤ c') : utilOf c M ≤ utilOf c' M := by
  rw [utilOf_eq, utilOf_eq]
  rcases Nat.eq_zero_or_pos M with h0 | hpos
  · simp [h0]
  · rw [div_le_div_iff_of_pos_right (by exact_mod_cast hpos)]
    exact_mod_cast h

theorem rebInner_pool (source : String) (thr : ℚ) (M : ℕ) :
    ∀ (tenants : List String) (s : RebState),
      s.router.rebalanceThresholdPercent = thr →
      s.router.maxTenantsPerShard = M →
      (∀ x ∈ s.under, ¬ (pct thr < x.utilization)) →
      (∀ x ∈ s.under, x.utilization = utilOf x.tenantCount M) →
      s.under.Pairwise descUtil →
      (rebInner source tenants s).router.rebalanceThresholdPercent = thr ∧
      (rebInner source tenants s).router.maxTenantsPerShard = M ∧
      (∀ x ∈ (rebInner source tenants s).under, ¬ (pct thr < x.utilization)) ∧
      (∀ x ∈ (rebInner source tenants s).under, x.utilization = utilOf x.tenantCount M) ∧
      (rebInner source tenants s).under.Pairwise descUtil := by
  intro tenants
  induction tenants with
  | nil => intro s h1 h2 h3 h4 h5; exact ⟨h1, h2, h3, h4, h5⟩
  | cons t ts ih =>
    intro s h1 h2 h3 h4 h5
    obtain ⟨r, under, migs⟩ := s
    cases under with
    | nil => exact ⟨h1, h2, h3, h4, h5⟩
    | cons tgt rest =>
      dsimp only at h1 h2 h3 h4 h5
      obtain ⟨f1, f2, _, _⟩ := migrateTenant_config r t tgt.shardId
      simp only [rebInner]
      by_cases hm : (migrateTenant r t tgt.shardId).1 = true
      · rw [if_pos hm]
        by_cases hcross : utilOf (tgt.tenantCount + 1) r.maxTenantsPerShard >
            pct r.rebalanceThresholdPercent
        · rw [if_pos hcross]
          exact ih ⟨(migrateTenant r t tgt.shardId).2, rest,
              migs ++ [⟨t, source, tgt.shardId⟩]⟩
            (f2.trans h1) (f1.trans h2)
            (fun x hx => h3 x (List.mem_cons_of_mem tgt hx))
            (fun x hx => h4 x (List.mem_cons_of_mem tgt hx))
            (List.Pairwise.of_cons h5)
        · rw [if_neg hcross]
          have htgt' : ¬ (pct thr < utilOf (tgt.tenantCount + 1) M) := by
            rw [← h1, ← h2]
            exact hcross
          have hmono : tgt.utilization ≤ utilOf (tgt.tenantCount + 1) M := by
            rw [h4 tgt (List.mem_cons_self tgt rest)]
            exact utilOf_mono _ _ _ (by omega)
          refine ih ⟨(migrateTenant r t tgt.shardId).2,
              { tgt with
                tenantCount := tgt.tenantCount + 1
                utilization := utilOf (tgt.tenantCount + 1) r.maxTenantsPerShard }
                :: rest,
              migs ++ [⟨t, source, tgt.shardId⟩]⟩
            (f2.trans h1) (f1.trans h2) ?_ ?_ ?_
          · intro x hx
            rcases List.mem_cons.mp hx with rfl | hx'
            · dsimp only
              rw [h2]
              exact htgt'
            · exact h3 x (List.mem_cons_of_mem tgt hx')
          · intro x hx
            rcases List.mem_cons.mp hx with rfl | hx'
            · dsimp only
              rw [h2]
            · exact h4 x (List.mem_cons_of_mem tgt hx')
          · rw [List.pairwise_cons]
            refine ⟨?_, List.Pairwise.of_cons h5⟩
            intro y hy
            have hrel : descUtil tgt y := List.rel_of_pairwise_cons h5 hy
            rw [descUtil] at hrel ⊢
            dsimp only
            rw [h2]
            exact le_trans hrel hmono
      · rw [if_neg hm]
        exact ih ⟨(migrateTenant r t tgt.shardId).2, tgt :: rest, migs⟩
          (f2.trans h1) (f1.trans h2) h3 h4 h5

theorem rebInner_migs (N : String → Prop) (source : String) :
    ∀ (tenants : List String) (s : RebState), (∀ x ∈ s.under, N x.shardId) →
      ∃ new, (rebInner source tenants s).migs = s.migs ++ new ∧
        new.length ≤ tenants.length ∧
        (∀ m ∈ new, m.src = source ∧ N m.tgt) := by
  intro tenants
  induction tenants with
  | nil => intro s _; exact ⟨[], by simp [rebInner], by simp, by simp⟩
  | cons t ts ih =>
    intro s hs
    obtain ⟨r, under, migs⟩ := s
    cases under with
    | nil => exact ⟨[], by simp [rebInner], by simp, by simp⟩
    | cons tgt rest =>
      have hNtgt : N tgt.shardId := hs tgt (List.mem_cons_self tgt rest)
      simp only [rebInner]
      by_cases hm : (migrateTenant r t tgt.shardId).1 = true
      · rw [if_pos hm]
        by_cases hcross : utilOf (tgt.tenantCount + 1) r.maxTenantsPerShard >
            pct r.rebalanceThresholdPercent
        · rw [if_pos hcross]
          obtain ⟨new', e1, e2, e3⟩ := ih ⟨(migrateTenant r t tgt.shardId).2, rest,
              migs ++ [⟨t, source, tgt.shardId⟩]⟩
            (fun x hx => hs x (List.mem_cons_of_mem tgt hx))
          refine ⟨⟨t, source, tgt.shardId⟩ :: new', ?_, by simpa using Nat.succ_le_succ e2, ?_⟩
          · rw [e1, List.append_assoc]
            rfl
          · intro m hm'
            rcases List.mem_cons.mp hm' with rfl | hm''
            · exact ⟨rfl, hNtgt⟩
            · exact e3 m hm''
        · rw [if_neg hcross]
          obtain ⟨new', e1, e2, e3⟩ := ih ⟨(migrateTenant r t tgt.shardId).2,
              { tgt with
                tenantCount := tgt.tenantCount + 1
                utilization := utilOf (tgt.tenantCount + 1) r.maxTenantsPerShard }
                :: rest,
              migs ++ [⟨t, source, tgt.shardId⟩]⟩
            (by
              intro x hx
              rcases List.mem_cons.mp hx with rfl | hx'
              · exact hNtgt
              · exact hs x (List.mem_cons_of_mem tgt hx'))
          refine ⟨⟨t, source, tgt.shardId⟩ :: new', ?_, by simpa using Nat.succ_le_succ e2, ?_⟩
          · rw [e1, List.append_assoc]
            rfl
          · intro m hm'
            rcases List.mem_cons.mp hm' with rfl | hm''
            · exact ⟨rfl, hNtgt⟩
            · exact e3 m hm''
      · rw [if_neg hm]
        obtain ⟨new', e1, e2, e3⟩ := ih ⟨(migrateTenant r t tgt.shardId).2, tgt :: rest, migs⟩ hs
        exact ⟨new', e1, le_trans e2 (Nat.le_succ _), e3⟩

theorem rebOuter_migs (N : String → Prop) :
    ∀ (overloaded : List SStat) (s : RebState), (∀ x ∈ s.under, N x.shardId) →
      ∃ new, (rebOuter overloaded s).migs = s.migs ++ new ∧
        (∀ m ∈ new, N m.tgt) ∧
        (∀ sid, (new.filter (fun m => decide (m.src = sid))).length ≤
          5 * ((overloaded.map SStat.shardId).count sid)) := by
  intro overloaded
  induction overloaded with
  | nil => intro s _; exact ⟨[], by simp [rebOuter], by simp, by simp⟩
  | cons o os ih =>
    intro s hs
    simp only [rebOuter]
    by_cases he : s.under.isEmpty = true
    · rw [if_pos he]
      exact ⟨[], by simp, by simp, by simp⟩
    · rw [if_neg he]
      obtain ⟨new1, e1, e2, e3⟩ := rebInner_migs N o.shardId
        (((s.router.cache.filter (fun p => decide (p.2 = o.shardId))).map (·.1)).take 5) s hs
      have hup := (rebInner_star N o.shardId
        (((s.router.cache.filter (fun p => decide (p.2 = o.shardId))).map (·.1)).take 5) s hs).2
      obtain ⟨new2, f1, f2, f3⟩ := ih _ hup
      refine ⟨new1 ++ new2, ?_, ?_, ?_⟩
      · rw [f1, e1, List.append_assoc]
      · intro m hm
        rcases List.mem_append.mp hm with hm1 | hm2
        · exact (e3 m hm1).2
        · exact f2 m hm2
      · intro sid
        rw [List.filter_append, List.length_append, List.map_cons, List.count_cons]
        by_cases hsid : o.shardId = sid
        · have h1 : (new1.filter (fun m => decide (m.src = sid))).length ≤ 5 := by
            calc (new1.filter (fun m => decide (m.src = sid))).length
                ≤ new1.length := List.length_filter_le _ _
              _ ≤ _ := e2
              _ ≤ 5 := by
                  rw [List.length_take]
                  exact Nat.min_le_left _ _
          have h2 := f3 sid
          simp only [hsid, beq_self_eq_true, if_true]
          omega
        · have h1 : (new1.filter (fun m => decide (m.src = sid))).length = 0 := by
            rw [List.length_eq_zero]
            rw [List.filter_eq_nil_iff]
            intro m hm
            simp only [decide_eq_true_eq]
            intro hcontra
            exact hsid (((e3 m hm).1).symm.trans hcontra)
          have h2 := f3 sid
          have hbeq : (o.shardId == sid) = false := by
            simp [hsid]
          rw [hbeq]
          simp only [Bool.false_eq_true, if_false]
          omega

/-- C8 counterexample: with shard 001 overloaded (45 of 50) and two
underloaded shards — 002 at 10 of 50 and 003 at 2 of 50 — the first
migration of rebalance_tenants is directed to shard 002, although shard 003
is an available, below-threshold shard of strictly smaller utilization: the
stats list is sorted by utilization in descending order, so the head of the
underloaded pool is the most-loaded underloaded shard, not the
least-loaded one the claim requires. -/
theorem c8_counterexample :
    ((rebalanceTenants rebalState).2).head? = some ⟨"a0", shardA, shardB⟩ ∧
    getShardUtilization rebalState shardC < getShardUtilization rebalState shardB ∧
    shardC ∈ rebalState.availableShards ∧
    ¬ (rebalState.rebalanceThresholdPercent / 100 < getShardUtilization rebalState shardC) := by
  refine ⟨by decide, by decide, by decide, ?_⟩
  rw [← pct_eq]
  decide

/-- C8 amended: during rebalance_tenants every migration out of an
overloaded shard is directed to the head of the underloaded pool — drawn
from the shards at or below the threshold at the start of the call — and
that pool is kept sorted by utilization in DESCENDING order, so each
migration goes to the most-loaded underloaded shard, not the least-loaded;
at most 5 tenants are migrated out of each overloaded shard per invocation
(for a duplicate-free known-shard set); and a pool member is removed as
soon as its utilization crosses the threshold, so the pool never contains
an above-threshold shard. -/
theorem c8_rebalance_target_policy (st : RouterState) :
    (∀ m ∈ (rebalanceTenants st).2,
      ¬ (st.rebalanceThresholdPercent / 100 < getShardUtilization st m.tgt)) ∧
    (st.availableShards.Nodup → ∀ sid,
      (((rebalanceTenants st).2).filter (fun m => decide (m.src = sid))).length ≤ 5) ∧
    (∀ (source t : String) (ts : List String) (r : RouterState) (tgt : SStat)
        (rest : List SStat) (migs0 : List Migration),
      (migrateTenant r t tgt.shardId).1 = true →
      ∃ under', rebInner source (t :: ts) ⟨r, tgt :: rest, migs0⟩ =
        rebInner source ts ⟨(migrateTenant r t tgt.shardId).2, under',
          migs0 ++ [⟨t, source, tgt.shardId⟩]⟩) ∧
    (∀ (source : String) (tenants : List String) (s : RebState),
      s.router.rebalanceThresholdPercent = st.rebalanceThresholdPercent →
      s.router.maxTenantsPerShard = st.maxTenantsPerShard →
      (∀ x ∈ s.under, ¬ (st.rebalanceThresholdPercent / 100 < x.utilization)) →
      (∀ x ∈ s.under, x.utilization = utilOf x.tenantCount st.maxTenantsPerShard) →
      s.under.Pairwise descUtil →
      (∀ x ∈ (rebInner source tenants s).under,
        ¬ (st.rebalanceThresholdPercent / 100 < x.utilization)) ∧
      (rebInner source tenants s).under.Pairwise descUtil) := by
  obtain ⟨new, e1, etgt, ecount⟩ := rebOuter_migs
    (fun g => ∃ x ∈ (List.insertionSort descUtil (st.availableShards.map (mkStat st))).filter
      (fun s => ! s.overThreshold), x.shardId = g)
    ((List.insertionSort descUtil (st.availableShards.map (mkStat st))).filter
      (fun s => s.overThreshold))
    ⟨st, (List.insertionSort descUtil (st.availableShards.map (mkStat st))).filter
      (fun s => ! s.overThreshold), []⟩
    (fun x hx => ⟨x, hx, rfl⟩)
  have hmigs : (rebalanceTenants st).2 = new := by
    rw [show (rebalanceTenants st).2 =
      (rebOuter ((List.insertionSort descUtil (st.availableShards.map (mkStat st))).filter
          (fun s => s.overThreshold))
        ⟨st, (List.insertionSort descUtil (st.availableShards.map (mkStat st))).filter
          (fun s => ! s.overThreshold), []⟩).migs from rfl, e1]
    simp
  refine ⟨?_, ?_, ?_, ?_⟩
  · intro m hm
    rw [hmigs] at hm
    obtain ⟨x, hx, hxe⟩ := etgt m hm
    rw [← hxe]
    exact underloaded_not_over st x hx
  · intro hnodup sid
    have hmapeq : (st.availableShards.map (mkStat st)).map SStat.shardId =
        st.availableShards := by
      rw [List.map_map, show SStat.shardId ∘ mkStat st = id from funext (fun _ => rfl),
        List.map_id]
    have hsub : List.Sublist
        (((List.insertionSort descUtil (st.availableShards.map (mkStat st))).filter
          (fun s => s.overThreshold)).map SStat.shardId)
        ((List.insertionSort descUtil (st.availableShards.map (mkStat st))).map
          SStat.shardId) :=
      (List.filter_sublist _).map SStat.shardId
    have hcount1 : (((List.insertionSort descUtil
        (st.availableShards.map (mkStat st))).filter
        (fun s => s.overThreshold)).map SStat.shardId).count sid ≤ 1 := by
      calc (((List.insertionSort descUtil (st.availableShards.map (mkStat st))).filter
          (fun s => s.overThreshold)).map SStat.shardId).count sid
          ≤ ((List.insertionSort descUtil (st.availableShards.map (mkStat st))).map
            SStat.shardId).count sid := hsub.count_le sid
        _ = ((st.availableShards.map (mkStat st)).map SStat.shardId).count sid :=
            ((List.perm_insertionSort descUtil _).map SStat.shardId).count_eq sid
        _ = st.availableShards.count sid := by rw [hmapeq]
        _ ≤ 1 := List.nodup_iff_count_le_one.mp hnodup sid
    rw [hmigs]
    calc ((new.filter (fun m => decide (m.src = sid)))).length
        ≤ 5 * (((List.insertionSort descUtil (st.availableShards.map (mkStat st))).filter
          (fun s => s.overThreshold)).map SStat.shardId).count sid := ecount sid
      _ ≤ 5 * 1 := Nat.mul_le_mul_left 5 hcount1
      _ = 5 := by norm_num
  · intro source t ts r tgt rest migs0 hm
    refine ⟨if utilOf (tgt.tenantCount + 1) r.maxTenantsPerShard >
        pct r.rebalanceThresholdPercent then rest
      else { tgt with
        tenantCount := tgt.tenantCount + 1
        utilization := utilOf (tgt.tenantCount + 1) r.maxTenantsPerShard } :: rest, ?_⟩
    simp only [rebInner]
    rw [if_pos hm]
  · intro source tenants s hthr hM hbelow hcons hsorted
    have h := rebInner_pool source st.rebalanceThresholdPercent st.maxTenantsPerShard
      tenants s hthr hM
      (fun x hx => by rw [pct_eq]; exact hbelow x hx) hcons hsorted
    refine ⟨fun x hx => ?_, h.2.2.2.2⟩
    have := h.2.2.1 x hx
    rw [pct_eq] at this
    exact this

/-- C8 witness: the amended policy at the concrete three-shard state: the
recorded migration of tenant a0 into shard 002 targets a shard that was at
or below the threshold at the start, and at most 5 tenants left the
overloaded shard 001. -/
theorem c8_rebalance_target_policy_witness :
    ¬ (rebalState.rebalanceThresholdPercent / 100 <
      getShardUtilization rebalState shardB) ∧
    (((rebalanceTenants rebalState).2).filter
      (fun m => decide (m.src = shardA))).length ≤ 5 :=
  ⟨(c8_rebalance_target_policy rebalState).1 ⟨"a0", shardA, shardB⟩ (by decide),
    (c8_rebalance_target_policy rebalState).2.1 (by decide) shardA⟩

end Aipress
